import Mathlib

/-!
Verification of the newNoise release tracker.

This file is a shallow embedding of the Python sources `newNoise.py` and
`database.py` of the newNoise repository, together with theorems checking
the natural-language specification against that embedding.

Modelling choices:
* A `datetime` value is an `Int` counting seconds since the proleptic
  Gregorian instant 0001-01-01 00:00:00 minus one day, so that a calendar
  date `(y, m, d)` at midnight corresponds to `rataDie y m d * 86400`
  (rata die day 1 = 0001-01-01, a Monday).  `timedelta(days = k)` is
  `k * 86400` and `datetime` comparison is `Int` order, exactly as Python
  compares full timestamps.
* `datetime.strptime(s, "%Y-%m-%d")` is embedded as `parseDate`: four year
  digits, one or two month digits, one or two day digits, separated by `-`,
  validated against the Gregorian calendar (CPython's `_strptime` regexes
  plus the `datetime` constructor's range checks).  A `ValueError` is the
  `none` result; the `except ValueError` branches of the source become the
  `none` cases.
* The constants `ARCHIVE_DAYS` and `TRACKS_PER_ARTIST` are imported by the
  source from `config.py`, which is not part of the snapshot; they appear
  here as explicit parameters `archive_days` / `tracks_per_artist`.
* The Spotify client `self.sp` is an external collaborator: every API
  response consumed by `update_playlist` (playlist membership, the album
  list per artist, the track list per album) is an explicit input.
* `datetime.now()` is called separately inside each classification helper;
  the faithful pipeline embedding `update_playlist_clocked` therefore
  threads a clock oracle `clock : Nat → Int` giving the value returned by
  the n-th `datetime.now()` call, while `update_playlist` is the
  special case in which every call returns the same instant.
-/

namespace NewNoise

/-- `True` iff `y` is a Gregorian leap year (Python `calendar.isleap`). -/
def leapYear (y : Nat) : Bool :=
  (y % 4 == 0 && y % 100 != 0) || y % 400 == 0

/-- Days in month `m` (1–12) of year `y`; matches `datetime`'s validation. -/
def daysInMonth (y m : Nat) : Nat :=
  if m = 2 then (if leapYear y then 29 else 28)
  else if m = 4 ∨ m = 6 ∨ m = 9 ∨ m = 11 then 30
  else 31

/-- Days of year `y` strictly before month `m`. -/
def daysBeforeMonth (y m : Nat) : Nat :=
  [0, 0, 31, 59, 90, 120, 151, 181, 212, 243, 273, 304, 334].getD m 0 +
    (if 2 < m && leapYear y then 1 else 0)

/-- Rata die day number of the Gregorian date `(y, m, d)`;
day 1 is 0001-01-01, a Monday. -/
def rataDie (y m d : Nat) : Nat :=
  365 * (y - 1) + ((y - 1) / 4 - (y - 1) / 100) + (y - 1) / 400 +
    daysBeforeMonth y m + d

/-- The timestamp (seconds) of midnight on the Gregorian date `(y, m, d)`. -/
def dateSec (y m d : Nat) : Int :=
  (rataDie y m d : Int) * 86400

/-- Split a character list at every `'-'` (the separators of `%Y-%m-%d`). -/
def splitDash : List Char → List (List Char)
  | [] => [[]]
  | c :: rest =>
    if c = '-' then [] :: splitDash rest
    else
      match splitDash rest with
      | [] => [[c]]
      | g :: gs => (c :: g) :: gs

/-- ASCII digit test. -/
def isDigitCh (c : Char) : Bool :=
  48 ≤ c.toNat && c.toNat ≤ 57

/-- Decimal value of a digit string. -/
def natOfDigits (l : List Char) : Nat :=
  l.foldl (fun a c => 10 * a + (c.toNat - 48)) 0

/-- Embedding of `datetime.strptime(s, "%Y-%m-%d")`: `some` midnight
timestamp on success, `none` where CPython raises `ValueError` (wrong
shape, month outside 1–12, day outside the month, year 0). -/
def parseDate (s : String) : Option Int :=
  match splitDash s.data with
  | [ys, ms, ds] =>
    if ys.length == 4 && ys.all isDigitCh &&
       (ms.length == 1 || ms.length == 2) && ms.all isDigitCh &&
       (ds.length == 1 || ds.length == 2) && ds.all isDigitCh then
      let y := natOfDigits ys
      let m := natOfDigits ms
      let d := natOfDigits ds
      if 1 ≤ y && 1 ≤ m && m ≤ 12 && 1 ≤ d && d ≤ daysInMonth y m then
        some (dateSec y m d)
      else none
    else none
  | _ => none

/-- The parsing step shared by the three date helpers of `newNoise.py`:
a 7-character string (year-month) is parsed as `release_date + "-01"`,
anything else as a full `%Y-%m-%d` date.  (The 4-character year-only case
is short-circuited to `False` by each helper before parsing.) -/
def parsedDate (release_date : String) : Option Int :=
  if release_date.length = 7 then parseDate (release_date ++ "-01")
  else parseDate release_date

/-- Python's `datetime.weekday()` on the day containing instant `t`:
0 = Monday … 6 = Sunday. -/
def weekdayOf (t : Int) : Int :=
  (t.fdiv 86400 - 1).emod 7

/-- The future clamp `if track_date > today: track_date = today` used by
all three date helpers. -/
def clampToToday (today track_date : Int) : Int :=
  if today < track_date then today else track_date

/-- Embedding of `SpotifyNewReleasesTracker.is_track_from_current_week`
(newNoise.py lines 155–176), with the `datetime.now()` result passed in as
`today`. -/
def is_track_from_current_week (today : Int) (release_date : String) : Bool :=
  if release_date.length = 4 then false
  else
    match parsedDate release_date with
    | none => false
    | some td =>
      let track_date := clampToToday today td
      let start_of_week := today - weekdayOf today * 86400
      let end_of_week := start_of_week + 6 * 86400
      decide (start_of_week ≤ track_date ∧ track_date ≤ end_of_week)

/-- Embedding of `SpotifyNewReleasesTracker._is_within_month`
(newNoise.py lines 218–235); `archive_days` is the `config.py` constant
`ARCHIVE_DAYS`, `today` the `datetime.now()` result. -/
def isWithinMonth (archive_days today : Int) (release_date : String) : Bool :=
  if release_date.length = 4 then false
  else
    match parsedDate release_date with
    | none => false
    | some td =>
      let track_date := clampToToday today td
      let cutoff := today - archive_days * 86400
      decide (cutoff ≤ track_date)

/-- Embedding of `SpotifyNewReleasesTracker._is_within_archive_period`
(newNoise.py lines 237–256). -/
def isWithinArchivePeriod (archive_days today : Int) (release_date : String) : Bool :=
  if release_date.length = 4 then false
  else
    match parsedDate release_date with
    | none => false
    | some td =>
      let track_date := clampToToday today td
      let week_ago := today - 7 * 86400
      let month_ago := today - archive_days * 86400
      decide (month_ago ≤ track_date ∧ track_date ≤ week_ago)

/-- `is_track_from_current_week` together with the lines it prints: the
`except ValueError` branch prints a warning before returning `False`. -/
def is_track_from_current_week_logged (today : Int) (release_date : String) :
    Bool × List String :=
  if release_date.length = 4 then (false, [])
  else
    match parsedDate release_date with
    | none => (false, ["Warning: Invalid release date format: " ++ release_date])
    | some td =>
      let track_date := clampToToday today td
      let start_of_week := today - weekdayOf today * 86400
      let end_of_week := start_of_week + 6 * 86400
      (decide (start_of_week ≤ track_date ∧ track_date ≤ end_of_week), [])

/-- `_is_within_month` together with the lines it prints: its
`except ValueError` branch returns `False` without printing anything. -/
def isWithinMonth_logged (archive_days today : Int) (release_date : String) :
    Bool × List String :=
  (isWithinMonth archive_days today release_date, [])

/-- `_is_within_archive_period` together with the lines it prints: its
`except ValueError` branch returns `False` without printing anything. -/
def isWithinArchivePeriod_logged (archive_days today : Int) (release_date : String) :
    Bool × List String :=
  (isWithinArchivePeriod archive_days today release_date, [])

/-- One entry of an `album_tracks` response: the track id and the id of the
first-listed (primary) credited artist, `track["artists"][0]["id"]`. -/
structure Track where
  id : String
  primary_artist_id : String
deriving DecidableEq

/-- One entry of an `artist_albums` response, with the `album_tracks`
response for that album inlined as `tracks`. -/
structure Album where
  release_date : String
  tracks : List Track
deriving DecidableEq

/-- The catalog data consumed by one update cycle: for each tracked artist
id (in `get_artist_ids` order), the `artist_albums(limit = 5)` response. -/
abbrev Catalog := List (String × List Album)

/-- The inner track loop of `update_playlist` (newNoise.py lines 120–134):
primary-artist filter, membership dedup against both playlists, then the
this-week / archive-period split, appending to the accumulated
`(new_tracks, archive_tracks)` pair. -/
def processTracks (archive_days today : Int) (cur arch : List String)
    (artist_id release_date : String) :
    List Track → List String × List String → List String × List String
  | [], acc => acc
  | t :: rest, acc =>
    processTracks archive_days today cur arch artist_id release_date rest
      (if t.primary_artist_id ≠ artist_id then acc
       else if cur.contains t.id || arch.contains t.id then acc
       else if is_track_from_current_week today release_date then
         (acc.1 ++ [t.id], acc.2)
       else if isWithinArchivePeriod archive_days today release_date then
         (acc.1, acc.2 ++ [t.id])
       else acc)

/-- The album loop of `update_playlist` (newNoise.py lines 112–134):
albums older than the archive window are skipped before their tracks are
fetched. -/
def processAlbums (archive_days today : Int) (cur arch : List String)
    (artist_id : String) :
    List Album → List String × List String → List String × List String
  | [], acc => acc
  | al :: rest, acc =>
    processAlbums archive_days today cur arch artist_id rest
      (if isWithinMonth archive_days today al.release_date then
        processTracks archive_days today cur arch artist_id al.release_date
          al.tracks acc
      else acc)

/-- The artist loop of `update_playlist` (newNoise.py lines 105–134). -/
def processArtists (archive_days today : Int) (cur arch : List String) :
    Catalog → List String × List String → List String × List String
  | [], acc => acc
  | (artist_id, als) :: rest, acc =>
    processArtists archive_days today cur arch rest
      (processAlbums archive_days today cur arch artist_id als acc)

/-- The candidate-collection phase of
`SpotifyNewReleasesTracker.update_playlist` (newNoise.py lines 88–134),
with every `datetime.now()` call returning the same instant `today`:
given the membership sets of the two playlists (fetched once at cycle
start) and the catalog responses, it returns the `(new_tracks,
archive_tracks)` batches in encounter order. -/
def update_playlist (archive_days today : Int) (cur arch : List String)
    (catalog : Catalog) : List String × List String :=
  processArtists archive_days today cur arch catalog ([], [])

/-- The submission chunking of `update_playlist` (newNoise.py lines
141–150): `for i in range(0, len(l), 50): batch = l[i:i+50]`. -/
def chunks50 (l : List String) : List (List String) :=
  (List.range ((l.length + 49) / 50)).map (fun i => (l.drop (50 * i)).take 50)

/-- The per-playlist counter of `update_playlist`: the sum of
`len(batch)` over all submitted chunks. -/
def tracks_added (l : List String) : Nat :=
  (chunks50 l).foldl (fun a b => a + b.length) 0

/-- The album loop body of `get_recent_tracks` (newNoise.py lines 79–84):
at most `tracks_per_artist` tracks per album, primary-artist filter. -/
def recentFromAlbum (tracks_per_artist : Nat) (artist_id : String)
    (al : Album) : List String :=
  ((al.tracks.take tracks_per_artist).filter
    (fun t => t.primary_artist_id == artist_id)).map Track.id

/-- The album loop of `get_recent_tracks` over one artist's albums. -/
def recentFromAlbums (tracks_per_artist : Nat) (artist_id : String) :
    List Album → List String
  | [] => []
  | al :: rest =>
    recentFromAlbum tracks_per_artist artist_id al ++
      recentFromAlbums tracks_per_artist artist_id rest

/-- The artist loop of `get_recent_tracks`. -/
def recentFromCatalog (tracks_per_artist : Nat) : Catalog → List String
  | [] => []
  | (artist_id, als) :: rest =>
    recentFromAlbums tracks_per_artist artist_id als ++
      recentFromCatalog tracks_per_artist rest

/-- Embedding of `SpotifyNewReleasesTracker.get_recent_tracks`
(newNoise.py lines 67–86): collects primary-credited track ids and caps
the global result at 50 (`recent_tracks[:50]`).  This helper is defined in
the source but never called by `update_playlist` or by any other code in
the repository. -/
def get_recent_tracks (tracks_per_artist : Nat) (catalog : Catalog) :
    List String :=
  (recentFromCatalog tracks_per_artist catalog).take 50

/-- The flattened list of every track id occurring in the catalog
responses, in encounter order (all tracks of all albums of all artists). -/
def albumsTrackIds : List Album → List String
  | [] => []
  | al :: rest => al.tracks.map Track.id ++ albumsTrackIds rest

/-- See `albumsTrackIds`. -/
def catalogTrackIds : Catalog → List String
  | [] => []
  | (_, als) :: rest => albumsTrackIds als ++ catalogTrackIds rest

/-- The inner track loop of `update_playlist`, with each of the
`datetime.now()` calls made inside `is_track_from_current_week` and
`_is_within_archive_period` drawn from the clock oracle: `clock k` is the
value returned by the `k`-th `datetime.now()` call of the cycle.  Returns
the next clock index together with the accumulated batches. -/
def processTracksClk (clock : Nat → Int) (archive_days : Int)
    (cur arch : List String) (artist_id release_date : String) :
    List Track → Nat → List String × List String →
      Nat × (List String × List String)
  | [], k, acc => (k, acc)
  | t :: rest, k, acc =>
    if t.primary_artist_id ≠ artist_id then
      processTracksClk clock archive_days cur arch artist_id release_date
        rest k acc
    else if cur.contains t.id || arch.contains t.id then
      processTracksClk clock archive_days cur arch artist_id release_date
        rest k acc
    else if is_track_from_current_week (clock k) release_date then
      processTracksClk clock archive_days cur arch artist_id release_date
        rest (k + 1) (acc.1 ++ [t.id], acc.2)
    else if isWithinArchivePeriod archive_days (clock (k + 1)) release_date then
      processTracksClk clock archive_days cur arch artist_id release_date
        rest (k + 2) (acc.1, acc.2 ++ [t.id])
    else
      processTracksClk clock archive_days cur arch artist_id release_date
        rest (k + 2) acc

/-- The album loop of `update_playlist` with the clock oracle: the
`_is_within_month` gate consumes one `datetime.now()` sample per album. -/
def processAlbumsClk (clock : Nat → Int) (archive_days : Int)
    (cur arch : List String) (artist_id : String) :
    List Album → Nat → List String × List String →
      Nat × (List String × List String)
  | [], k, acc => (k, acc)
  | al :: rest, k, acc =>
    if isWithinMonth archive_days (clock k) al.release_date then
      processAlbumsClk clock archive_days cur arch artist_id rest
        (processTracksClk clock archive_days cur arch artist_id
          al.release_date al.tracks (k + 1) acc).1
        (processTracksClk clock archive_days cur arch artist_id
          al.release_date al.tracks (k + 1) acc).2
    else
      processAlbumsClk clock archive_days cur arch artist_id rest (k + 1) acc

/-- The artist loop of `update_playlist` with the clock oracle. -/
def processArtistsClk (clock : Nat → Int) (archive_days : Int)
    (cur arch : List String) :
    Catalog → Nat → List String × List String →
      Nat × (List String × List String)
  | [], k, acc => (k, acc)
  | (artist_id, als) :: rest, k, acc =>
    processArtistsClk clock archive_days cur arch rest
      (processAlbumsClk clock archive_days cur arch artist_id als k acc).1
      (processAlbumsClk clock archive_days cur arch artist_id als k acc).2

/-- The faithful embedding of the candidate-collection phase of
`update_playlist`: each date-classification helper calls `datetime.now()`
itself, so the `k`-th call observes `clock k`. -/
def update_playlist_clocked (clock : Nat → Int) (archive_days : Int)
    (cur arch : List String) (catalog : Catalog) :
    List String × List String :=
  (processArtistsClk clock archive_days cur arch catalog 0 ([], [])).2

/-- A row of the `artists` table of `database.py` (the
`date_added` column is server-defaulted and never read back by the
program, so it is omitted). -/
structure ArtistRow where
  id : String
  name : String
  url : String
deriving DecidableEq

/-- Embedding of `ArtistDatabase.add_artist` (database.py lines 23–35):
`INSERT OR IGNORE` keyed on the primary key `id`, returning
`cursor.rowcount > 0`.  The `sqlite3.Error` path (storage failure, which
returns `False` after logging) is outside this failure-free embedding. -/
def add_artist (db : List ArtistRow) (artist_id name url : String) :
    Bool × List ArtistRow :=
  if db.any (fun r => r.id == artist_id) then (false, db)
  else (true, db ++ [⟨artist_id, name, url⟩])

/-- Modelled from the spec (§4.2 step 1): normalization of a
precision-tagged release date string to a concrete date — year → Jan 1,
year-month → first of month, full date → as-is, parse failure → `none`. -/
def spec_normalize (s : String) : Option Int :=
  if s.length = 4 then parseDate (s ++ "-01-01")
  else if s.length = 7 then parseDate (s ++ "-01")
  else parseDate s

/-- Modelled from the spec (§4.2 step 4 and §8): the ARCHIVE window
predicate — year-only precision excluded, otherwise true iff the
normalized, future-clamped date lies in `[now - archive_days, now]` with
both boundaries included. -/
def spec_archive (archive_days today : Int) (s : String) : Bool :=
  if s.length = 4 then false
  else
    match parsedDate s with
    | none => false
    | some d0 =>
      let d := clampToToday today d0
      decide (today - archive_days * 86400 ≤ d ∧ d ≤ today)

/-- Modelled from the spec (§4.2 step 5): the secondary
"within archive period but not this week" bucket — true iff the
normalized (year → Jan 1, year-month → first of month), future-clamped
date lies in `[now - archive_days, now - 7 days]`. -/
def spec_archive_period (archive_days today : Int) (s : String) : Bool :=
  match spec_normalize s with
  | none => false
  | some d0 =>
    let d := clampToToday today d0
    decide (today - archive_days * 86400 ≤ d ∧ d ≤ today - 7 * 86400)

/-- Midnight on Monday 2024-05-06, a concrete `datetime.now()` value. -/
def mondayT : Int := dateSec 2024 5 6

/-- Noon on Monday 2024-05-06. -/
def mondayNoon : Int := mondayT + 43200

/-- A catalog in which one tracked artist has one album released on
2024-05-06 holding 120 distinct primary-credited tracks: 120 eligible new
tracks in a single update cycle. -/
def bigCatalog : Catalog :=
  [("A1", [⟨"2024-05-06",
    (List.range 120).map (fun i => ⟨String.mk (List.replicate i 'x'), "A1"⟩)⟩])]

/-- A catalog in which the same track id `"T"` occurs on two albums of one
artist with different release dates (a single released this week and an
album released ten days ago, say). -/
def dupCatalog : Catalog :=
  [("A1", [⟨"2024-05-06", [⟨"T", "A1"⟩]⟩, ⟨"2024-04-26", [⟨"T", "A1"⟩]⟩])]

/-- A catalog with a single track released ten days before `mondayT`. -/
def tenDayCatalog : Catalog :=
  [("A7", [⟨"2024-04-26", [⟨"T7", "A7"⟩]⟩])]

/-- A catalog with a single track released on 2024-05-06. -/
def c4Catalog : Catalog :=
  [("A4", [⟨"2024-05-06", [⟨"T4", "A4"⟩]⟩])]

/-- A two-track catalog used to instantiate the dedup invariant. -/
def c2wCatalog : Catalog :=
  [("A2", [⟨"2024-05-06", [⟨"T2", "A2"⟩, ⟨"U2", "A2"⟩]⟩])]

/-- A clock whose first `datetime.now()` sample is `mondayT` and whose
later samples are eight days further on: the same inputs observed under a
drifting clock. -/
def driftClock : Nat → Int :=
  fun k => if k = 0 then mondayT else mondayT + 8 * 86400

/-- Number of occurrences of a track id in a list. -/
def countId (x : String) : List String → Nat
  | [] => 0
  | y :: rest => (if y = x then 1 else 0) + countId x rest

theorem weekdayOf_nonneg (t : Int) : 0 ≤ weekdayOf t := by
  unfold weekdayOf
  exact Int.emod_nonneg _ (by decide)

theorem weekdayOf_lt_seven (t : Int) : weekdayOf t < 7 := by
  unfold weekdayOf
  exact Int.emod_lt_of_pos _ (by decide)

theorem spec_normalize_of_len_ne_four (s : String) (h4 : s.length ≠ 4) :
    spec_normalize s = parsedDate s := by
  unfold spec_normalize parsedDate
  simp [h4]

/-- C3 counterexample: on Wednesday 2024-05-01, the year-month release
date `"2024-05"` (normalized to 2024-05-01) is classified as
THIS_WEEK by `is_track_from_current_week`, so a year-month precision date
is not always classified not-this-week. -/
theorem claim_C3_counterexample :
    is_track_from_current_week (dateSec 2024 5 1) "2024-05" = true := by decide

/-- C3 (amended): a year-only (length-4) release date is never classified
THIS_WEEK, for every `now`; a year-month date, however, is normalized to
the first of the month and classified by the ordinary week test. -/
theorem claim_C3_amended (today : Int) (s : String) (h4 : s.length = 4) :
    is_track_from_current_week today s = false := by
  unfold is_track_from_current_week
  simp [h4]

/-- Witness for `claim_C3_amended` at `now = 0`, `s = "1999"`. -/
theorem claim_C3_witness :
    ("1999" : String).length = 4 ∧ is_track_from_current_week 0 "1999" = false :=
  ⟨rfl, claim_C3_amended 0 "1999" rfl⟩

/-- C5, evaluated at the failing input: at noon on Monday 2024-05-06, the
full-precision release date `"2024-05-06"` — equal to `now`'s calendar
date — is classified NOT this-week (`start_of_week` keeps `now`'s
time-of-day, so Monday 00:00 < Monday 12:00), while the future date
`"2024-06-05"` (`now + 30 days`) is clamped to `now` and classified
this-week, as the claim states. -/
theorem claim_C5_eval :
    is_track_from_current_week mondayNoon "2024-05-06" = false ∧
    is_track_from_current_week mondayNoon "2024-06-05" = true := by
  constructor
  · decide
  · decide

/-- C6: with `archive_days = 30`, `_is_within_month` agrees exactly with
the specified ARCHIVE window — year-only dates excluded, otherwise true
iff the normalized, future-clamped date lies in `[now - 30 days, now]`,
both boundaries included. -/
theorem claim_C6 (today : Int) (s : String) :
    isWithinMonth 30 today s = spec_archive 30 today s := by
  unfold isWithinMonth spec_archive
  by_cases h4 : s.length = 4
  · simp [h4]
  · simp only [h4, if_false]
    cases hp : parsedDate s with
    | none => rfl
    | some td =>
      simp only [clampToToday]
      rw [decide_eq_decide]
      by_cases hc : today < td
      · simp only [if_pos hc]
        omega
      · simp only [if_neg hc]
        omega

/-- C7 counterexample: on 2024-01-20, the year-only date `"2024"`
normalizes (per the spec, year → Jan 1) to 2024-01-01, which lies inside
`[now - 30 days, now - 7 days]`, yet `_is_within_archive_period` returns
`False`: the code rejects every year-only date up front, so the claimed
iff fails. -/
theorem claim_C7_counterexample :
    isWithinArchivePeriod 30 (dateSec 2024 1 20) "2024" = false ∧
    spec_archive_period 30 (dateSec 2024 1 20) "2024" = true := by
  constructor
  · decide
  · decide

/-- C7 (amended): for release dates that are not year-only,
`_is_within_archive_period` holds iff the normalized, future-clamped date
lies in `[now - archive_days, now - 7 days]`; and in the concrete
scenario — `archive_days = 30`, a track released ten days before `now`,
both playlists empty — the pipeline puts the track in the archive batch
and not in the new batch. -/
theorem claim_C7_amended (archive_days today : Int) (s : String)
    (h4 : s.length ≠ 4) :
    isWithinArchivePeriod archive_days today s =
      spec_archive_period archive_days today s ∧
    update_playlist 30 mondayT [] [] tenDayCatalog = ([], ["T7"]) := by
  constructor
  · unfold isWithinArchivePeriod spec_archive_period
    rw [spec_normalize_of_len_ne_four s h4]
    simp only [h4, if_false]
  · decide

/-- Witness for `claim_C7_amended` at `archive_days = 30`,
`now = mondayT`, `s = "2024-04-26"`. -/
theorem claim_C7_witness :
    ("2024-04-26" : String).length ≠ 4 ∧
    isWithinArchivePeriod 30 mondayT "2024-04-26" =
      spec_archive_period 30 mondayT "2024-04-26" :=
  ⟨by decide, (claim_C7_amended 30 mondayT "2024-04-26" (by decide)).1⟩

/-- C9: inserting a fresh artist id succeeds, and an immediately repeated
insert with the same id returns `False` and leaves the table unchanged —
`INSERT OR IGNORE` is an idempotent no-op on a duplicate key. -/
theorem claim_C9 (db : List ArtistRow) (artist_id name url name2 url2 : String)
    (h : db.all (fun r => r.id != artist_id) = true) :
    (add_artist db artist_id name url).1 = true ∧
    (add_artist (add_artist db artist_id name url).2 artist_id name2 url2).1
      = false ∧
    (add_artist (add_artist db artist_id name url).2 artist_id name2 url2).2
      = (add_artist db artist_id name url).2 := by
  have hany : db.any (fun r => r.id == artist_id) = false := by
    rw [List.any_eq_false]
    intro r hr
    have := List.all_eq_true.mp h r hr
    simpa using this
  refine ⟨?_, ?_, ?_⟩ <;>
    simp [add_artist, hany, List.any_append]

/-- Witness for `claim_C9` on the empty table. -/
theorem claim_C9_witness :
    ([] : List ArtistRow).all (fun r => r.id != "a1") = true ∧
    (add_artist [] "a1" "Artist" "http://a1").1 = true :=
  ⟨rfl, (claim_C9 [] "a1" "Artist" "http://a1" "Artist" "http://b" rfl).1⟩

theorem countId_nil (x : String) : countId x [] = 0 := rfl

theorem countId_cons (x y : String) (l : List String) :
    countId x (y :: l) = (if y = x then 1 else 0) + countId x l := rfl

theorem countId_append (x : String) (l1 l2 : List String) :
    countId x (l1 ++ l2) = countId x l1 + countId x l2 := by
  induction l1 with
  | nil => simp [countId]
  | cons y rest ih =>
    simp only [List.cons_append, countId_cons, ih]
    omega

theorem countId_eq_zero_of_not_mem {x : String} {l : List String}
    (h : x ∉ l) : countId x l = 0 := by
  induction l with
  | nil => rfl
  | cons y rest ih =>
    simp only [List.mem_cons, not_or] at h
    have hyx : y ≠ x := fun e => h.1 e.symm
    simp [countId_cons, hyx, ih h.2]

theorem one_le_countId_of_mem {x : String} {l : List String}
    (h : x ∈ l) : 1 ≤ countId x l := by
  induction l with
  | nil => cases h
  | cons y rest ih =>
    by_cases hxy : y = x
    · rw [countId_cons, if_pos hxy]
      omega
    · rcases List.mem_cons.mp h with he | hm
      · exact absurd he.symm hxy
      · have := ih hm
        rw [countId_cons, if_neg hxy]
        omega

theorem countId_le_one_of_nodup {x : String} {l : List String}
    (h : l.Nodup) : countId x l ≤ 1 := by
  induction l with
  | nil => simp [countId]
  | cons y rest ih =>
    rcases List.nodup_cons.mp h with ⟨hy, hrest⟩
    by_cases hxy : y = x
    · subst hxy
      have h0 : countId y rest = 0 := countId_eq_zero_of_not_mem hy
      simp [countId_cons, h0]
    · simp only [countId_cons, if_neg hxy]
      have := ih hrest
      omega

theorem processTracks_count_le (archive_days today : Int)
    (cur arch : List String) (artist_id release_date x : String) :
    ∀ (ts : List Track) (acc : List String × List String),
      countId x (processTracks archive_days today cur arch artist_id
          release_date ts acc).1 +
        countId x (processTracks archive_days today cur arch artist_id
          release_date ts acc).2 ≤
      countId x acc.1 + countId x acc.2 + countId x (ts.map Track.id) := by
  intro ts
  induction ts with
  | nil =>
    intro acc
    simp [processTracks, countId]
  | cons t rest ih =>
    intro acc
    simp only [processTracks, List.map_cons, countId_cons]
    by_cases h1 : t.primary_artist_id ≠ artist_id
    · rw [if_pos h1]
      have := ih acc
      by_cases hx : t.id = x
      · rw [if_pos hx]
        omega
      · rw [if_neg hx]
        omega
    · rw [if_neg h1]
      by_cases h2 : (cur.contains t.id || arch.contains t.id) = true
      · rw [if_pos h2]
        have := ih acc
        by_cases hx : t.id = x
        · rw [if_pos hx]
          omega
        · rw [if_neg hx]
          omega
      · rw [if_neg h2]
        by_cases h3 : is_track_from_current_week today release_date = true
        · rw [if_pos h3]
          have := ih (acc.1 ++ [t.id], acc.2)
          simp only [countId_append, countId_cons, countId_nil] at this
          by_cases hx : t.id = x
          · rw [if_pos hx] at this ⊢
            omega
          · rw [if_neg hx] at this ⊢
            omega
        · rw [if_neg h3]
          by_cases hA : isWithinArchivePeriod archive_days today release_date
              = true
          · rw [if_pos hA]
            have := ih (acc.1, acc.2 ++ [t.id])
            simp only [countId_append, countId_cons, countId_nil] at this
            by_cases hx : t.id = x
            · rw [if_pos hx] at this ⊢
              omega
            · rw [if_neg hx] at this ⊢
              omega
          · rw [if_neg hA]
            have := ih acc
            by_cases hx : t.id = x
            · rw [if_pos hx]
              omega
            · rw [if_neg hx]
              omega

theorem processAlbums_count_le (archive_days today : Int)
    (cur arch : List String) (artist_id x : String) :
    ∀ (als : List Album) (acc : List String × List String),
      countId x (processAlbums archive_days today cur arch artist_id
          als acc).1 +
        countId x (processAlbums archive_days today cur arch artist_id
          als acc).2 ≤
      countId x acc.1 + countId x acc.2 + countId x (albumsTrackIds als) := by
  intro als
  induction als with
  | nil =>
    intro acc
    simp [processAlbums, albumsTrackIds, countId]
  | cons al rest ih =>
    intro acc
    simp only [processAlbums, albumsTrackIds, countId_append]
    by_cases hg : isWithinMonth archive_days today al.release_date = true
    · simp only [if_pos hg]
      have h1 := processTracks_count_le archive_days today cur arch artist_id
        al.release_date x al.tracks acc
      have h2 := ih (processTracks archive_days today cur arch artist_id
        al.release_date al.tracks acc)
      omega
    · simp only [if_neg hg]
      have := ih acc
      omega

theorem processArtists_count_le (archive_days today : Int)
    (cur arch : List String) (x : String) :
    ∀ (catalog : Catalog) (acc : List String × List String),
      countId x (processArtists archive_days today cur arch catalog acc).1 +
        countId x (processArtists archive_days today cur arch catalog acc).2 ≤
      countId x acc.1 + countId x acc.2 + countId x (catalogTrackIds catalog) := by
  intro catalog
  induction catalog with
  | nil =>
    intro acc
    simp [processArtists, catalogTrackIds, countId]
  | cons p rest ih =>
    intro acc
    simp only [processArtists, catalogTrackIds, countId_append]
    have h1 := processAlbums_count_le archive_days today cur arch p.1 x p.2 acc
    have h2 := ih (processAlbums archive_days today cur arch p.1 p.2 acc)
    omega

theorem processTracks_not_mem (archive_days today : Int)
    (cur arch : List String) (artist_id release_date x : String)
    (hx : cur.contains x = true ∨ arch.contains x = true) :
    ∀ (ts : List Track) (acc : List String × List String),
      (x ∉ acc.1 → x ∉ (processTracks archive_days today cur arch artist_id
        release_date ts acc).1) ∧
      (x ∉ acc.2 → x ∉ (processTracks archive_days today cur arch artist_id
        release_date ts acc).2) := by
  intro ts
  induction ts with
  | nil =>
    intro acc
    exact ⟨fun h => h, fun h => h⟩
  | cons t rest ih =>
    intro acc
    simp only [processTracks]
    by_cases h1 : t.primary_artist_id ≠ artist_id
    · rw [if_pos h1]
      exact ih acc
    · rw [if_neg h1]
      by_cases h2 : (cur.contains t.id || arch.contains t.id) = true
      · rw [if_pos h2]
        exact ih acc
      · rw [if_neg h2]
        have hne : t.id ≠ x := by
          intro e
          rw [e] at h2
          rcases hx with hc | hc
          · rw [hc] at h2
            exact h2 rfl
          · rw [hc, Bool.or_true] at h2
            exact h2 rfl
        by_cases h3 : is_track_from_current_week today release_date = true
        · rw [if_pos h3]
          have hrec := ih (acc.1 ++ [t.id], acc.2)
          refine ⟨fun hna => hrec.1 ?_, fun hna => hrec.2 hna⟩
          intro hmem
          rcases List.mem_append.mp hmem with h | h
          · exact hna h
          · exact hne (List.mem_singleton.mp h).symm
        · rw [if_neg h3]
          by_cases hA : isWithinArchivePeriod archive_days today release_date
              = true
          · rw [if_pos hA]
            have hrec := ih (acc.1, acc.2 ++ [t.id])
            refine ⟨fun hna => hrec.1 hna, fun hna => hrec.2 ?_⟩
            intro hmem
            rcases List.mem_append.mp hmem with h | h
            · exact hna h
            · exact hne (List.mem_singleton.mp h).symm
          · rw [if_neg hA]
            exact ih acc

theorem processAlbums_not_mem (archive_days today : Int)
    (cur arch : List String) (artist_id x : String)
    (hx : cur.contains x = true ∨ arch.contains x = true) :
    ∀ (als : List Album) (acc : List String × List String),
      (x ∉ acc.1 → x ∉ (processAlbums archive_days today cur arch artist_id
        als acc).1) ∧
      (x ∉ acc.2 → x ∉ (processAlbums archive_days today cur arch artist_id
        als acc).2) := by
  intro als
  induction als with
  | nil =>
    intro acc
    exact ⟨fun h => h, fun h => h⟩
  | cons al rest ih =>
    intro acc
    simp only [processAlbums]
    by_cases hg : isWithinMonth archive_days today al.release_date = true
    · simp only [if_pos hg]
      have htr := processTracks_not_mem archive_days today cur arch artist_id
        al.release_date x hx al.tracks acc
      have hrec := ih (processTracks archive_days today cur arch artist_id
        al.release_date al.tracks acc)
      exact ⟨fun hna => hrec.1 (htr.1 hna), fun hna => hrec.2 (htr.2 hna)⟩
    · simp only [if_neg hg]
      exact ih acc

theorem processArtists_not_mem (archive_days today : Int)
    (cur arch : List String) (x : String)
    (hx : cur.contains x = true ∨ arch.contains x = true) :
    ∀ (catalog : Catalog) (acc : List String × List String),
      (x ∉ acc.1 → x ∉ (processArtists archive_days today cur arch
        catalog acc).1) ∧
      (x ∉ acc.2 → x ∉ (processArtists archive_days today cur arch
        catalog acc).2) := by
  intro catalog
  induction catalog with
  | nil =>
    intro acc
    exact ⟨fun h => h, fun h => h⟩
  | cons p rest ih =>
    intro acc
    simp only [processArtists]
    have hal := processAlbums_not_mem archive_days today cur arch p.1 x hx
      p.2 acc
    have hrec := ih (processAlbums archive_days today cur arch p.1 p.2 acc)
    exact ⟨fun hna => hrec.1 (hal.1 hna), fun hna => hrec.2 (hal.2 hna)⟩

/-- C2 counterexample: when the same track id occurs on two albums with
different release dates (here a release on 2024-05-06 and one on
2024-04-26, against `now = mondayT`), `update_playlist` puts that id in
the new-tracks batch AND in the archive batch: nothing dedups across the
two accumulating lists within a cycle. -/
theorem claim_C2_counterexample :
    "T" ∈ (update_playlist 30 mondayT [] [] dupCatalog).1 ∧
    "T" ∈ (update_playlist 30 mondayT [] [] dupCatalog).2 := by
  constructor
  · decide
  · decide

/-- C2 (amended): if every track id occurs at most once among the fetched
catalog entries (no duplicate ids across albums), then no id is placed in
both batches; and — unconditionally — an id contained in either playlist
membership set at cycle start never appears in either submitted batch. -/
theorem claim_C2_amended (archive_days today : Int) (cur arch : List String)
    (catalog : Catalog) :
    ((catalogTrackIds catalog).Nodup →
      ∀ x, x ∈ (update_playlist archive_days today cur arch catalog).1 →
        x ∉ (update_playlist archive_days today cur arch catalog).2) ∧
    (∀ x, cur.contains x = true ∨ arch.contains x = true →
      x ∉ (update_playlist archive_days today cur arch catalog).1 ∧
      x ∉ (update_playlist archive_days today cur arch catalog).2) := by
  constructor
  · intro hnd x h1 h2
    have hcnt := processArtists_count_le archive_days today cur arch x
      catalog ([], [])
    have hle := countId_le_one_of_nodup (x := x) hnd
    unfold update_playlist at h1 h2
    have m1 := one_le_countId_of_mem h1
    have m2 := one_le_countId_of_mem h2
    simp only [countId_nil] at hcnt
    omega
  · intro x hx
    have h := processArtists_not_mem archive_days today cur arch x hx
      catalog ([], [])
    exact ⟨h.1 (List.not_mem_nil x), h.2 (List.not_mem_nil x)⟩

/-- Witness for `claim_C2_amended`: a concrete duplicate-free catalog with
a nonempty current-playlist membership set, instantiating both the
Nodup-conditioned disjointness half and the unconditional
membership-exclusion half. -/
theorem claim_C2_witness :
    (catalogTrackIds c2wCatalog).Nodup ∧
    "T2" ∉ (update_playlist 30 mondayT ["X"] [] c2wCatalog).2 ∧
    "X" ∉ (update_playlist 30 mondayT ["X"] [] c2wCatalog).1 :=
  ⟨by decide,
    (claim_C2_amended 30 mondayT ["X"] [] c2wCatalog).1 (by decide) "T2"
      (by decide),
    ((claim_C2_amended 30 mondayT ["X"] [] c2wCatalog).2 "X"
      (Or.inl (by decide))).1⟩

set_option maxRecDepth 100000 in
/-- C1 counterexample: with 120 eligible new tracks in the catalog and
both playlists empty, `update_playlist` adds 120 tracks to the current
playlist, not 50: no global 50-candidate cap is applied before chunking. -/
theorem claim_C1_counterexample :
    (catalogTrackIds bigCatalog).length = 120 ∧
    tracks_added (update_playlist 30 mondayT [] [] bigCatalog).1 ≠ 50 := by
  constructor
  · decide
  · decide

set_option maxRecDepth 100000 in
/-- C1 (amended): with 120 eligible new tracks, `update_playlist` submits
all 120 to the current playlist, chunked into `ceil(120/50) = 3` API calls
of at most 50 tracks each, and reports 120 tracks added; the global
50-track hard cap (`recent_tracks[:50]`) exists only in
`get_recent_tracks`, a helper that `update_playlist` never calls. -/
theorem claim_C1_amended :
    (update_playlist 30 mondayT [] [] bigCatalog).1.length = 120 ∧
    tracks_added (update_playlist 30 mondayT [] [] bigCatalog).1 = 120 ∧
    (chunks50 (update_playlist 30 mondayT [] [] bigCatalog).1).length = 3 ∧
    ((chunks50 (update_playlist 30 mondayT [] [] bigCatalog).1).all
      (fun c => decide (c.length ≤ 50))) = true ∧
    (get_recent_tracks 200 bigCatalog).length = 50 := by
  refine ⟨?_, ?_, ?_, ?_, ?_⟩ <;> decide

theorem processTracksClk_const (archive_days t : Int) (cur arch : List String)
    (artist_id release_date : String) :
    ∀ (ts : List Track) (k : Nat) (acc : List String × List String),
      (processTracksClk (fun _ => t) archive_days cur arch artist_id
        release_date ts k acc).2 =
      processTracks archive_days t cur arch artist_id release_date ts acc := by
  intro ts
  induction ts with
  | nil => intro k acc; rfl
  | cons tr rest ih =>
    intro k acc
    simp only [processTracksClk, processTracks]
    by_cases h1 : tr.primary_artist_id ≠ artist_id
    · simp only [if_pos h1]
      exact ih k acc
    · simp only [if_neg h1]
      by_cases h2 : (cur.contains tr.id || arch.contains tr.id) = true
      · simp only [if_pos h2]
        exact ih k acc
      · simp only [if_neg h2]
        by_cases h3 : is_track_from_current_week t release_date = true
        · simp only [if_pos h3]
          exact ih (k + 1) (acc.1 ++ [tr.id], acc.2)
        · simp only [if_neg h3]
          by_cases hA : isWithinArchivePeriod archive_days t release_date
              = true
          · simp only [if_pos hA]
            exact ih (k + 2) (acc.1, acc.2 ++ [tr.id])
          · simp only [if_neg hA]
            exact ih (k + 2) acc

theorem processAlbumsClk_const (archive_days t : Int) (cur arch : List String)
    (artist_id : String) :
    ∀ (als : List Album) (k : Nat) (acc : List String × List String),
      (processAlbumsClk (fun _ => t) archive_days cur arch artist_id
        als k acc).2 =
      processAlbums archive_days t cur arch artist_id als acc := by
  intro als
  induction als with
  | nil => intro k acc; rfl
  | cons al rest ih =>
    intro k acc
    simp only [processAlbumsClk, processAlbums]
    by_cases hg : isWithinMonth archive_days t al.release_date = true
    · simp [hg, ih, processTracksClk_const]
    · simp [hg, ih]

theorem processArtistsClk_const (archive_days t : Int)
    (cur arch : List String) :
    ∀ (catalog : Catalog) (k : Nat) (acc : List String × List String),
      (processArtistsClk (fun _ => t) archive_days cur arch
        catalog k acc).2 =
      processArtists archive_days t cur arch catalog acc := by
  intro catalog
  induction catalog with
  | nil => intro k acc; rfl
  | cons p rest ih =>
    intro k acc
    simp only [processArtistsClk, processArtists]
    simp [ih, processAlbumsClk_const]

/-- C4 counterexample: the pipeline's classification helpers each call
`datetime.now()` themselves.  With identical catalog, membership and
first-observed clock value, a run whose later `datetime.now()` samples
drift (here by eight days) produces a different output than a run whose
samples all equal the first: the cycle does not use a single captured
`now`, and its output is not a function of the fixed inputs alone. -/
theorem claim_C4_counterexample :
    update_playlist_clocked driftClock 30 [] [] c4Catalog ≠
      update_playlist 30 (driftClock 0) [] [] c4Catalog := by
  decide

/-- C4 (amended): every `datetime.now()` call is made separately inside
the classification helpers; in the special case where all samples return
the same instant `t`, the cycle coincides with the pure single-`now`
pipeline, and is therefore deterministic in (catalog, memberships, `t`). -/
theorem claim_C4_amended (archive_days t : Int) (cur arch : List String)
    (catalog : Catalog) :
    update_playlist_clocked (fun _ => t) archive_days cur arch catalog =
      update_playlist archive_days t cur arch catalog := by
  unfold update_playlist_clocked update_playlist
  rw [processArtistsClk_const]

/-- C8 counterexample: for the unparseable release date `"garbage-xx"`,
`_is_within_month` and `_is_within_archive_period` classify SKIP but
surface no warning at all — their `except ValueError` branches print
nothing, so "a warning is surfaced to the caller" fails for two of the
three classification predicates. -/
theorem claim_C8_counterexample :
    parsedDate "garbage-xx" = none ∧
    isWithinMonth_logged 30 mondayT "garbage-xx" = (false, []) ∧
    isWithinArchivePeriod_logged 30 mondayT "garbage-xx" = (false, []) := by
  refine ⟨?_, ?_, ?_⟩ <;> decide

/-- C8 (amended): when a (non-year-only) release date string fails to
parse, all three classification predicates return `False` (SKIP) without
raising, and the album loop of `update_playlist` skips the offending album
and continues with the remaining albums; but only
`is_track_from_current_week` prints the warning — the other two helpers
swallow the `ValueError` silently. -/
theorem claim_C8_amended (archive_days today : Int) (s : String)
    (h4 : s.length ≠ 4) (hp : parsedDate s = none) :
    is_track_from_current_week_logged today s =
      (false, ["Warning: Invalid release date format: " ++ s]) ∧
    isWithinMonth_logged archive_days today s = (false, []) ∧
    isWithinArchivePeriod_logged archive_days today s = (false, []) ∧
    is_track_from_current_week today s = false ∧
    ∀ (ts : List Track) (rest : List Album) (artist_id : String)
      (cur arch : List String) (acc : List String × List String),
      processAlbums archive_days today cur arch artist_id
        (⟨s, ts⟩ :: rest) acc =
      processAlbums archive_days today cur arch artist_id rest acc := by
  have hfalse : isWithinMonth archive_days today s = false := by
    unfold isWithinMonth
    simp [h4, hp]
  refine ⟨?_, ?_, ?_, ?_, ?_⟩
  · unfold is_track_from_current_week_logged
    simp [h4, hp]
  · unfold isWithinMonth_logged
    rw [hfalse]
  · unfold isWithinArchivePeriod_logged isWithinArchivePeriod
    simp [h4, hp]
  · unfold is_track_from_current_week
    simp [h4, hp]
  · intro ts rest artist_id cur arch acc
    simp only [processAlbums]
    simp [hfalse]

/-- Witness for `claim_C8_amended` at `s = "bad-date!!"`. -/
theorem claim_C8_witness :
    ("bad-date!!" : String).length ≠ 4 ∧ parsedDate "bad-date!!" = none ∧
    isWithinMonth_logged 30 0 "bad-date!!" = (false, []) :=
  ⟨by decide, by decide,
    (claim_C8_amended 30 0 "bad-date!!" (by decide) (by decide)).2.1⟩

/-- C10: for every release date string and a single fixed `now`, the
this-week predicate and the secondary archive-period predicate are never
both true: the week window starts at `now - weekday(now) days ≥ now - 6
days` while the archive-period window ends at `now - 7 days`. -/
theorem claim_C10 (archive_days today : Int) (s : String) :
    (is_track_from_current_week today s &&
      isWithinArchivePeriod archive_days today s) = false := by
  unfold is_track_from_current_week isWithinArchivePeriod
  by_cases h4 : s.length = 4
  · simp [h4]
  · simp only [h4, if_false]
    cases hp : parsedDate s with
    | none => rfl
    | some td =>
      have h0 := weekdayOf_nonneg today
      have h7 := weekdayOf_lt_seven today
      simp only [clampToToday, Bool.and_eq_false_iff, decide_eq_false_iff_not]
      by_cases hc : today < td
      · simp only [if_pos hc]
        omega
      · simp only [if_neg hc]
        omega

end NewNoise
